import Mathlib

/-!
Shallow embedding of the booking-request service
(`src/server/server.js`, `src/server/db.js`, `src/unnamed/part_000`).

The request body is modelled with `Option` fields: `none` stands for a JS
field that is absent / not an array / falsy, `some` for a present string or
array of strings.  The persistent store is a list of records; SQL statements
are modelled by the list operations they perform.
-/

/-- A booking-request submission body, as accessed by `validateBooking`:
`body?.preferences?.dates`, `body?.preferences?.windows`,
`body?.customer?.{name,phone,email}`,
`body?.address?.{line1,line2,city,state,zip}`, `body?.notes`. -/
structure Body where
  dates : Option (List String)
  windows : Option (List String)
  name : Option String
  phone : Option String
  email : Option String
  line1 : Option String
  line2 : Option String
  city : Option String
  state : Option String
  zip : Option String
  notes : Option String
  deriving Repr, DecidableEq

/-- The normalized record produced by `validateBooking` in
`src/server/server.js` (its `cleaned` value, with
`preferences.dates/windows` defaulted to `[]` via `dates || []`). -/
structure Cleaned where
  dates : List String
  windows : List String
  name : String
  phone : String
  email : Option String
  line1 : String
  line2 : Option String
  city : String
  state : String
  zip : String
  notes : Option String
  deriving Repr, DecidableEq

/-- JS `x || ""` on a possibly-absent string. -/
def optStr (o : Option String) : String := o.getD ""

/-- JS `String.prototype.trim`: strip whitespace from both ends. -/
def jsTrim (s : String) : String :=
  ⟨((s.data.dropWhile Char.isWhitespace).reverse.dropWhile Char.isWhitespace).reverse⟩

/-- JS `s || null`: an empty string becomes absent. -/
def emptyToNone (s : String) : Option String := if s = "" then none else some s

/-- Function `normalizePhone` from `src/server/server.js` (lines 59-61):
`String(phone || "").replace(/\D/g, "")` — keep exactly the ASCII digits. -/
def normalizePhone (s : String) : String := ⟨s.data.filter (fun c => c.isDigit)⟩

/-- Function `isValidISODate` from `src/server/server.js` (lines 63-65):
the regex `^\d{4}-\d{2}-\d{2}$`. -/
def isValidISODate (s : String) : Bool :=
  match s.data with
  | [y1, y2, y3, y4, h1, m1, m2, h2, d1, d2] =>
      y1.isDigit && y2.isDigit && y3.isDigit && y4.isDigit && (h1 == '-') &&
      m1.isDigit && m2.isDigit && (h2 == '-') && d1.isDigit && d2.isDigit
  | _ => false

/-- The `allowedWindows` set of `validateBooking`. -/
def allowedWindows : List String := ["morning", "afternoon", "evening"]

/-- JS `Array.isArray(x) && x.length >= 1` on an optional array. -/
def arrNonEmpty (o : Option (List String)) : Bool :=
  match o with
  | none => false
  | some l => decide (1 ≤ l.length)

/-- Function `validateBooking` from `src/server/server.js` (lines 67-121), with the
errors accumulated in the same order as the JS `errors.push` calls. -/
def validateBooking (b : Body) : List String × Cleaned :=
  let dates := b.dates
  let windows := b.windows
  let e : List String := []
  let e := if arrNonEmpty dates then e else e ++ ["Select at least 1 preferred day."]
  let e := if arrNonEmpty windows then e else e ++ ["Select at least 1 time window."]
  let e := match dates with
    | none => e
    | some ds => e ++ ds.filterMap
        (fun d => if isValidISODate d then none else some ("Invalid date: " ++ d))
  let e := match windows with
    | none => e
    | some ws => e ++ ws.filterMap
        (fun w => if allowedWindows.contains w then none else some ("Invalid window: " ++ w))
  let name := jsTrim (optStr b.name)
  let phone := normalizePhone (optStr b.phone)
  let email := emptyToNone (jsTrim (optStr b.email))
  let line1 := jsTrim (optStr b.line1)
  let line2 := emptyToNone (jsTrim (optStr b.line2))
  let city := jsTrim (optStr b.city)
  let state := let s := jsTrim (optStr b.state); if s = "" then "UT" else s
  let zip := jsTrim (optStr b.zip)
  let notes := emptyToNone (jsTrim (optStr b.notes))
  let e := if name = "" then e ++ ["Name is required."] else e
  let e := if phone = "" then e ++ ["Phone is required."] else e
  let e := if line1 = "" then e ++ ["Street address is required."] else e
  let e := if city = "" then e ++ ["City is required."] else e
  let e := if zip = "" then e ++ ["ZIP is required."] else e
  (e, { dates := dates.getD [], windows := windows.getD [],
        name := name, phone := phone, email := email,
        line1 := line1, line2 := line2, city := city, state := state,
        zip := zip, notes := notes })

/-! Independent per-rule error lists, used to state that `validateBooking`
applies every rule and collects all violations. -/

/-- Rule: dates must be a non-empty array. -/
def ruleDatesPresent (b : Body) : List String :=
  if arrNonEmpty b.dates then [] else ["Select at least 1 preferred day."]

/-- Rule: windows must be a non-empty array. -/
def ruleWindowsPresent (b : Body) : List String :=
  if arrNonEmpty b.windows then [] else ["Select at least 1 time window."]

/-- Rule: every submitted date must match `^\d{4}-\d{2}-\d{2}$`. -/
def ruleDatesValid (b : Body) : List String :=
  match b.dates with
  | none => []
  | some ds => ds.filterMap
      (fun d => if isValidISODate d then none else some ("Invalid date: " ++ d))

/-- Rule: every submitted window must lie in `allowedWindows`. -/
def ruleWindowsValid (b : Body) : List String :=
  match b.windows with
  | none => []
  | some ws => ws.filterMap
      (fun w => if allowedWindows.contains w then none else some ("Invalid window: " ++ w))

/-- Rule: name trims non-empty. -/
def ruleName (b : Body) : List String :=
  if jsTrim (optStr b.name) = "" then ["Name is required."] else []

/-- Rule: phone has at least one digit. -/
def rulePhone (b : Body) : List String :=
  if normalizePhone (optStr b.phone) = "" then ["Phone is required."] else []

/-- Rule: line1 trims non-empty. -/
def ruleLine1 (b : Body) : List String :=
  if jsTrim (optStr b.line1) = "" then ["Street address is required."] else []

/-- Rule: city trims non-empty. -/
def ruleCity (b : Body) : List String :=
  if jsTrim (optStr b.city) = "" then ["City is required."] else []

/-- Rule: zip trims non-empty. -/
def ruleZip (b : Body) : List String :=
  if jsTrim (optStr b.zip) = "" then ["ZIP is required."] else []

/-! ## Admin guard and store model (`src/server/server.js`) -/

/-- An HTTP response of the modelled routes. -/
inductive Resp (α : Type) : Type where
  | ok : α → Resp α
  | badRequest : Resp α
  | notFound : Resp α
  | unauthorized : Resp α
  deriving Repr, DecidableEq

/-- JS truthiness of `process.env.ADMIN_KEY` (a string or undefined):
`undefined` and `""` are falsy. -/
def envTruthy (o : Option String) : Bool :=
  match o with
  | none => false
  | some s => !(s == "")

/-- Function `requireAdmin` from `src/server/server.js` (lines 123-129):
passes iff `process.env.ADMIN_KEY` is truthy and
`req.headers["x-admin-key"]` strictly equals it. -/
def requireAdmin (adminKey hdr : Option String) : Bool :=
  envTruthy adminKey && (hdr == adminKey)

/-- The `requireAdmin` middleware wrapping an admin route: the wrapped
handler's response when the guard passes, `401 Unauthorized` otherwise. -/
def guardAdmin {α : Type} (adminKey hdr : Option String) (op : Resp α) : Resp α :=
  if requireAdmin adminKey hdr then op else Resp.unauthorized

/-- A row of the `booking_requests` table (schema in `src/server/db.js` /
the Postgres table of `src/server/server.js`).  `created_at` is modelled
as a `Nat` timestamp. -/
structure Record where
  id : Nat
  created_at : Nat
  preferred_dates : List String
  preferred_windows : List String
  name : String
  phone : String
  email : Option String
  line1 : String
  line2 : Option String
  city : String
  state : String
  zip : String
  notes : Option String
  status : String
  deriving Repr, DecidableEq

/-- Ordering used by `ORDER BY created_at DESC`. -/
def byCreatedDesc (a b : Record) : Prop := b.created_at ≤ a.created_at

instance : DecidableRel byCreatedDesc := fun a b => Nat.decLe b.created_at a.created_at

instance : IsTotal Record byCreatedDesc := ⟨fun a b => Nat.le_total b.created_at a.created_at⟩

instance : IsTrans Record byCreatedDesc := ⟨fun _ _ _ h1 h2 => Nat.le_trans h2 h1⟩

/-- The query `SELECT * FROM booking_requests WHERE status = $1 ORDER BY created_at
DESC LIMIT 500` over a store modelled as a list of rows. -/
def listRequests (store : List Record) (status : String) : List Record :=
  ((store.filter (fun r => r.status == status)).insertionSort byCreatedDesc).take 500

/-- The effective status filter of the admin list route
(`src/server/server.js` lines 202-203): `String(req.query.status ||
"requested").trim()` — absent or empty query falls back to `"requested"`. -/
def effectiveStatus (q : Option String) : String :=
  jsTrim (match q with
          | none => "requested"
          | some s => if s = "" then "requested" else s)

/-- The `GET /api/admin/requests` handler body (`src/server/server.js` lines
202-225), after the guard; the store read is modelled as succeeding. -/
def listHandler (store : List Record) (q : Option String) : Resp (List Record) :=
  Resp.ok (listRequests store (effectiveStatus q))

/-- The full admin list route: `requireAdmin` then the handler. -/
def adminListRoute (adminKey hdr : Option String) (store : List Record)
    (q : Option String) : Resp (List Record) :=
  guardAdmin adminKey hdr (listHandler store q)

/-- The allowed statuses of the PATCH handler (`src/server/server.js`
line 232). -/
def allowedStatuses : List String := ["requested", "scheduled", "cancelled"]

/-- The statement `UPDATE booking_requests SET status = $1 WHERE id = $2 RETURNING id`:
the updated store together with the row count. -/
def updateStatus (store : List Record) (id : Nat) (st : String) :
    List Record × Nat :=
  (store.map (fun r => if r.id == id then { r with status := st } else r),
   (store.filter (fun r => r.id == id)).length)

/-- The `PATCH /api/admin/requests/:id` handler body (`src/server/server.js`
lines 228-258), after the guard: reject a status outside the enum with
400 before touching the store; otherwise run the UPDATE and answer 404
when it matched no row. -/
def patchHandler (store : List Record) (id : Nat) (bodyStatus : Option String) :
    Resp Unit × List Record :=
  let status := jsTrim (optStr bodyStatus)
  if !(allowedStatuses.contains status) then (Resp.badRequest, store)
  else
    let u := updateStatus store id status
    if u.2 == 0 then (Resp.notFound, u.1)
    else (Resp.ok (), u.1)

/-- The full admin update route: `requireAdmin` then the handler. -/
def adminPatchRoute (adminKey hdr : Option String) (store : List Record)
    (id : Nat) (bodyStatus : Option String) : Resp Unit × List Record :=
  if requireAdmin adminKey hdr then patchHandler store id bodyStatus
  else (Resp.unauthorized, store)

/-! ## JSON serialization of string arrays

`src/unnamed/part_000` stores the date/window sequences with
`JSON.stringify` and re-reads them with `JSON.parse`.  The encoder below
produces exactly the text `JSON.stringify` produces on an array of strings
whose characters need at most the two-character escapes modelled here
(every validated date or window is of that shape); the parser models
`JSON.parse` on the grammar the encoder emits. -/

/-- JSON escaping of one character inside a string literal. -/
def escapeChar (c : Char) : List Char :=
  if c == '"' then ['\\', '"']
  else if c == '\\' then ['\\', '\\']
  else if c == '\n' then ['\\', 'n']
  else if c == '\t' then ['\\', 't']
  else if c == '\r' then ['\\', 'r']
  else [c]

/-- Inverse of `escapeChar` on the escape letter. -/
def unescapeChar (c : Char) : Option Char :=
  if c == '"' then some '"'
  else if c == '\\' then some '\\'
  else if c == 'n' then some '\n'
  else if c == 't' then some '\t'
  else if c == 'r' then some '\r'
  else none

/-- A character that is emitted unescaped by `escapeChar`. -/
def plainChar (c : Char) : Bool :=
  !(c == '"') && !(c == '\\') && !(c == '\n') && !(c == '\t') && !(c == '\r')

/-- The body of a JSON string literal: escaped characters, closing quote
excluded. -/
def encodeJsonString (s : String) : List Char :=
  '"' :: (s.data.flatMap escapeChar ++ ['"'])

/-- The items of a JSON array of strings, from the first item to the
closing bracket. -/
def encodeSeq : List String → List Char
  | [] => [']']
  | a :: rest =>
    encodeJsonString a ++
      (match rest with
       | [] => [']']
       | _ :: _ => ',' :: encodeSeq rest)

/-- Model of `JSON.stringify` on an array of strings. -/
def encodeStringArray (l : List String) : String := ⟨'[' :: encodeSeq l⟩

/-- Scan a JSON string literal after its opening quote, unescaping as it
goes; returns the decoded characters and the input after the closing
quote. -/
def parseJsonStringAux (esc : Bool) (acc : List Char) (cs : List Char) :
    Option (List Char × List Char) :=
  match cs with
  | [] => none
  | c :: cs =>
    if esc then
      match unescapeChar c with
      | none => none
      | some u => parseJsonStringAux false (u :: acc) cs
    else if c == '"' then some (acc.reverse, cs)
    else if c == '\\' then parseJsonStringAux true acc cs
    else parseJsonStringAux false (c :: acc) cs

/-- Parse the comma-separated items of a JSON string array up to the
closing bracket.  `fuel` bounds the number of items. -/
def parseItems (fuel : Nat) (cs : List Char) : Option (List String × List Char) :=
  match fuel with
  | 0 => none
  | fuel + 1 =>
    match cs with
    | [] => none
    | c :: cs1 =>
      if c == '"' then
        match parseJsonStringAux false [] cs1 with
        | none => none
        | some (chars, rest) =>
          match rest with
          | [] => none
          | r0 :: r =>
            if r0 == ']' then some ([⟨chars⟩], r)
            else if r0 == ',' then
              match parseItems fuel r with
              | some (l2, r2) => some ((⟨chars⟩ : String) :: l2, r2)
              | none => none
            else none
      else none

/-- Model of `JSON.parse` on the text of a JSON array of strings. -/
def parseStringArray (s : String) : Option (List String) :=
  match s.data with
  | [] => none
  | c0 :: rest =>
    if c0 == '[' then
      match rest with
      | [] => none
      | c1 :: rest2 =>
        if c1 == ']' then (if rest2 = [] then some [] else none)
        else
          match parseItems rest.length rest with
          | some (l, []) => some l
          | _ => none
    else none

/-- Model of `JSON.stringify` applied to a possibly-absent array (`undefined` stays
absent). -/
def stringifyArr (o : Option (List String)) : Option String :=
  o.map encodeStringArray

/-! ## The `src/unnamed/part_000` variant (SQLite store of
`src/server/db.js`) -/

namespace Part000

/-- The `cleaned` value of `validate` in `src/unnamed/part_000`: the raw
`dates`/`windows` values are kept (no `|| []` default), and `state` has no
region-code default. -/
structure Cleaned where
  dates : Option (List String)
  windows : Option (List String)
  name : String
  phone : String
  email : Option String
  line1 : String
  line2 : Option String
  city : String
  state : String
  zip : String
  notes : Option String
  deriving Repr, DecidableEq

/-- Function `validate` from `src/unnamed/part_000` (lines 17-63).  It differs from
`validateBooking` in `src/server/server.js`: the first message is
`"Select at least 1 day."`, `state` is required and has no `"UT"`
default. -/
def validate (b : Body) : List String × Cleaned :=
  let dates := b.dates
  let windows := b.windows
  let e : List String := []
  let e := if arrNonEmpty dates then e else e ++ ["Select at least 1 day."]
  let e := if arrNonEmpty windows then e else e ++ ["Select at least 1 time window."]
  let e := match dates with
    | none => e
    | some ds => e ++ ds.filterMap
        (fun d => if isValidISODate d then none else some ("Invalid date: " ++ d))
  let e := match windows with
    | none => e
    | some ws => e ++ ws.filterMap
        (fun w => if allowedWindows.contains w then none else some ("Invalid window: " ++ w))
  let name := jsTrim (optStr b.name)
  let phone := normalizePhone (optStr b.phone)
  let email := emptyToNone (jsTrim (optStr b.email))
  let line1 := jsTrim (optStr b.line1)
  let line2 := emptyToNone (jsTrim (optStr b.line2))
  let city := jsTrim (optStr b.city)
  let state := jsTrim (optStr b.state)
  let zip := jsTrim (optStr b.zip)
  let notes := emptyToNone (jsTrim (optStr b.notes))
  let e := if name = "" then e ++ ["Name is required."] else e
  let e := if phone = "" then e ++ ["Phone is required."] else e
  let e := if line1 = "" then e ++ ["Street address is required."] else e
  let e := if city = "" then e ++ ["City is required."] else e
  let e := if state = "" then e ++ ["State is required."] else e
  let e := if zip = "" then e ++ ["ZIP is required."] else e
  (e, { dates := dates, windows := windows,
        name := name, phone := phone, email := email,
        line1 := line1, line2 := line2, city := city, state := state,
        zip := zip, notes := notes })

/-- A row of the SQLite `booking_requests` table (`src/server/db.js`):
the sequences are stored as JSON text in `preferred_dates_json` /
`preferred_windows_json`. -/
structure Row where
  id : Nat
  created_at : Nat
  preferred_dates_json : Option String
  preferred_windows_json : Option String
  name : String
  phone : String
  email : Option String
  line1 : String
  line2 : Option String
  city : String
  state : String
  zip : String
  notes : Option String
  status : String
  deriving Repr, DecidableEq

/-- The `POST /api/booking-request` handler from `src/unnamed/part_000` (lines 66-96):
validate, reject with 400 on any error, otherwise insert a row whose
sequence columns hold `JSON.stringify` of the cleaned sequences and whose
`status` defaults to `"requested"`. -/
def postHandler (store : List Row) (nextId now : Nat) (b : Body) :
    Resp Nat × List Row :=
  let v := validate b
  if v.1.length != 0 then (Resp.badRequest, store)
  else
    (Resp.ok nextId,
     store ++ [{ id := nextId, created_at := now,
                 preferred_dates_json := stringifyArr v.2.dates,
                 preferred_windows_json := stringifyArr v.2.windows,
                 name := v.2.name, phone := v.2.phone, email := v.2.email,
                 line1 := v.2.line1, line2 := v.2.line2, city := v.2.city,
                 state := v.2.state, zip := v.2.zip, notes := v.2.notes,
                 status := "requested" }])

/-- The per-row decoding done by the admin list handler in
`src/unnamed/part_000` (lines 113-117): `JSON.parse` of the two stored
JSON columns. -/
def decodeRow (r : Row) : Option (List String) × Option (List String) :=
  (r.preferred_dates_json.bind parseStringArray,
   r.preferred_windows_json.bind parseStringArray)

end Part000

/-- A concrete stored row used by the witness theorems (the valid
submission of spec §8, as persisted). -/
def sampleRecord : Record :=
  { id := 1, created_at := 7, preferred_dates := ["2025-03-01"],
    preferred_windows := ["morning"], name := "Jane Doe",
    phone := "5551234567", email := none, line1 := "1 Main St",
    line2 := none, city := "Provo", state := "UT", zip := "84601",
    notes := none, status := "requested" }

/-! ## Helper lemmas -/

theorem ite_append_comm (c : Prop) [Decidable c] (e x : List String) :
    (if c then e else e ++ x) = e ++ (if c then [] else x) := by
  split <;> simp

theorem ite_append_comm2 (c : Prop) [Decidable c] (e x : List String) :
    (if c then e ++ x else e) = e ++ (if c then x else []) := by
  split <;> simp

theorem match_append (o : Option (List String)) (e : List String)
    (f : List String → List String) :
    (match o with | none => e | some ds => e ++ f ds) =
      e ++ (match o with | none => [] | some ds => f ds) := by
  cases o <;> simp

/-- The error list of `validateBooking` decomposes into the
independently-computed per-rule error lists, in push order. -/
theorem validateBooking_errors_eq (b : Body) :
    (validateBooking b).1 =
      ruleDatesPresent b ++ ruleWindowsPresent b ++ ruleDatesValid b ++
      ruleWindowsValid b ++ ruleName b ++ rulePhone b ++ ruleLine1 b ++
      ruleCity b ++ ruleZip b := by
  simp only [validateBooking, ite_append_comm, ite_append_comm2, match_append]
  simp only [ruleDatesPresent, ruleWindowsPresent, ruleDatesValid,
    ruleWindowsValid, ruleName, rulePhone, ruleLine1, ruleCity, ruleZip,
    List.nil_append, List.append_assoc]

/-- The error list of the `src/unnamed/part_000` validator decomposes the
same way; the date/window rules are literally shared with
`validateBooking`, the dates-presence message and the state rule differ. -/
theorem part000_errors_eq (b : Body) :
    (Part000.validate b).1 =
      (if arrNonEmpty b.dates then [] else ["Select at least 1 day."]) ++
      ruleWindowsPresent b ++ ruleDatesValid b ++ ruleWindowsValid b ++
      ruleName b ++ rulePhone b ++ ruleLine1 b ++ ruleCity b ++
      (if jsTrim (optStr b.state) = "" then ["State is required."] else []) ++
      ruleZip b := by
  simp only [Part000.validate, ite_append_comm, ite_append_comm2, match_append]
  simp only [ruleWindowsPresent, ruleDatesValid, ruleWindowsValid,
    ruleName, rulePhone, ruleLine1, ruleCity, ruleZip,
    List.nil_append, List.append_assoc]

theorem string_ne_of_take_ne (k : Nat) (a b : String)
    (h : a.data.take k ≠ b.data.take k) : a ≠ b :=
  fun he => h (by rw [he])

theorem invalidDate_take (d : String) :
    ("Invalid date: " ++ d).data.take 9 = ['I','n','v','a','l','i','d',' ','d'] := by
  rw [String.data_append, List.take_append_of_le_length (by decide)]
  decide

theorem invalidWindow_take (w : String) :
    ("Invalid window: " ++ w).data.take 9 = ['I','n','v','a','l','i','d',' ','w'] := by
  rw [String.data_append, List.take_append_of_le_length (by decide)]
  decide

theorem invalidDate_ne_fixed (d m : String)
    (hm : (['I','n','v','a','l','i','d',' ','d'] : List Char) ≠ m.data.take 9) :
    "Invalid date: " ++ d ≠ m :=
  string_ne_of_take_ne 9 _ _ (by rw [invalidDate_take]; exact hm)

theorem mem_ite_single {s m : String} {c : Prop} [Decidable c]
    (h : s ∈ (if c then ([] : List String) else [m])) : s = m := by
  split at h
  · cases h
  · simpa using h

theorem mem_ite_single2 {s m : String} {c : Prop} [Decidable c]
    (h : s ∈ (if c then [m] else ([] : List String))) : s = m := by
  split at h
  · simpa using h
  · cases h

theorem mem_ruleDatesValid_iff (b : Body) (ds : List String)
    (hds : b.dates = some ds) (d : String) :
    ("Invalid date: " ++ d) ∈ ruleDatesValid b ↔
      d ∈ ds ∧ isValidISODate d = false := by
  unfold ruleDatesValid
  rw [hds]
  simp only [List.mem_filterMap]
  constructor
  · rintro ⟨a, ha, hfa⟩
    by_cases hv : isValidISODate a = true
    · simp [hv] at hfa
    · have hv' : isValidISODate a = false := by simpa using hv
      rw [hv'] at hfa
      simp at hfa
      have had : a = d := congrArg String.mk (List.append_cancel_left (by
        have h2 := congrArg String.data hfa
        rwa [String.data_append, String.data_append] at h2))
      exact ⟨had ▸ ha, had ▸ hv'⟩
  · rintro ⟨hd, hinv⟩
    exact ⟨d, hd, by simp [hinv]⟩

theorem mem_ruleWindowsValid_shape (b : Body) (s : String)
    (h : s ∈ ruleWindowsValid b) : ∃ w, s = "Invalid window: " ++ w := by
  cases hbw : b.windows with
  | none => simp [ruleWindowsValid, hbw] at h
  | some ws =>
    simp only [ruleWindowsValid, hbw, List.mem_filterMap] at h
    obtain ⟨a, _, hfa⟩ := h
    by_cases hv : allowedWindows.contains a = true
    · rw [hv] at hfa
      simp at hfa
    · have hv' : allowedWindows.contains a = false := by simpa using hv
      rw [hv'] at hfa
      simp at hfa
      exact ⟨a, hfa.symm⟩

/-- C3: `validateBooking` applies all rules independently and collects
every violation: its error list is the concatenation of the per-rule
error lists, and an input violating four rules at once (empty dates, an
out-of-set window, a missing name, a phone with no digits) yields exactly
one message per violated rule. -/
theorem validator_collects_all_violations :
    (∀ b : Body,
      (validateBooking b).1 =
        ruleDatesPresent b ++ ruleWindowsPresent b ++ ruleDatesValid b ++
        ruleWindowsValid b ++ ruleName b ++ rulePhone b ++ ruleLine1 b ++
        ruleCity b ++ ruleZip b) ∧
    (validateBooking
      { dates := some [], windows := some ["noon"], name := none,
        phone := some "abc", email := none, line1 := some "x", line2 := none,
        city := some "y", state := none, zip := some "z", notes := none }).1 =
      ["Select at least 1 preferred day.", "Invalid window: noon",
       "Name is required.", "Phone is required."] :=
  ⟨validateBooking_errors_eq, by decide⟩

/-- C4: a submitted date string is accepted exactly when it matches
`^\d{4}-\d{2}-\d{2}$` — `"2024-02-31"` passes, there being no calendar
check — and every non-matching string is reported by an error message
naming that specific string. -/
theorem date_validation_is_pattern_match_only :
    (∀ (b : Body) (ds : List String), b.dates = some ds → ∀ d ∈ ds,
      (("Invalid date: " ++ d) ∈ (validateBooking b).1 ↔
        isValidISODate d = false)) ∧
    isValidISODate "2024-02-31" = true := by
  refine ⟨?_, by decide⟩
  intro b ds hds d hd
  rw [validateBooking_errors_eq]
  simp only [List.mem_append]
  constructor
  · rintro ((((((((h | h) | h) | h) | h) | h) | h) | h) | h)
    · exact absurd (mem_ite_single h) (invalidDate_ne_fixed d _ (by decide))
    · exact absurd (mem_ite_single h) (invalidDate_ne_fixed d _ (by decide))
    · exact ((mem_ruleDatesValid_iff b ds hds d).mp h).2
    · obtain ⟨w, hw⟩ := mem_ruleWindowsValid_shape b _ h
      have h9 := congrArg (fun s : String => s.data.take 9) hw
      simp only [invalidDate_take, invalidWindow_take] at h9
      exact absurd h9 (by decide)
    · exact absurd (mem_ite_single2 h) (invalidDate_ne_fixed d _ (by decide))
    · exact absurd (mem_ite_single2 h) (invalidDate_ne_fixed d _ (by decide))
    · exact absurd (mem_ite_single2 h) (invalidDate_ne_fixed d _ (by decide))
    · exact absurd (mem_ite_single2 h) (invalidDate_ne_fixed d _ (by decide))
    · exact absurd (mem_ite_single2 h) (invalidDate_ne_fixed d _ (by decide))
  · intro hinv
    exact Or.inl (Or.inl (Or.inl (Or.inl (Or.inl (Or.inl
      (Or.inr ((mem_ruleDatesValid_iff b ds hds d).mpr ⟨hd, hinv⟩)))))))

/-- Witness for C4 at a concrete malformed date. -/
theorem date_validation_is_pattern_match_only_witness :
    ("Invalid date: " ++ "13/05/2024") ∈
      (validateBooking
        { dates := some ["13/05/2024"], windows := some ["morning"],
          name := some "A", phone := some "1", email := none,
          line1 := some "L", line2 := none, city := some "C", state := none,
          zip := some "Z", notes := none }).1 ∧
    isValidISODate "2024-02-31" = true :=
  ⟨(date_validation_is_pattern_match_only.1
      { dates := some ["13/05/2024"], windows := some ["morning"],
        name := some "A", phone := some "1", email := none,
        line1 := some "L", line2 := none, city := some "C", state := none,
        zip := some "Z", notes := none }
      ["13/05/2024"] rfl "13/05/2024" (by decide)).mpr (by decide),
   date_validation_is_pattern_match_only.2⟩

/-- C5: the validator's error list does not depend on the state field at
all, and an absent or blank state yields the fixed region code `"UT"` in
the normalized record. -/
theorem state_defaults_and_never_errors :
    (∀ (b : Body) (s' : Option String),
      (validateBooking { b with state := s' }).1 = (validateBooking b).1) ∧
    (∀ b : Body, b.state = none ∨ jsTrim (optStr b.state) = "" →
      (validateBooking b).2.state = "UT") := by
  constructor
  · intro b s'
    rfl
  · intro b h
    have hs : jsTrim (optStr b.state) = "" := by
      rcases h with h | h
      · rw [h]; rfl
      · exact h
    simp [validateBooking, hs]

/-- Witness for C5 at a body with the state absent. -/
theorem state_defaults_and_never_errors_witness :
    (validateBooking
      { dates := some ["2025-03-01"], windows := some ["morning"],
        name := some "Jane Doe", phone := some "(555) 123-4567", email := none,
        line1 := some "1 Main St", line2 := none, city := some "Provo",
        state := none, zip := some "84601", notes := none }).2.state = "UT" :=
  state_defaults_and_never_errors.2
    { dates := some ["2025-03-01"], windows := some ["morning"],
      name := some "Jane Doe", phone := some "(555) 123-4567", email := none,
      line1 := some "1 Main St", line2 := none, city := some "Provo",
      state := none, zip := some "84601", notes := none }
    (Or.inl rfl)

/-- C8: phone normalization keeps exactly the digit characters of its
input, in order; it is idempotent, and a digits-only string is returned
unchanged. -/
theorem normalizePhone_digits_idempotent :
    (∀ s : String, (normalizePhone s).data.Sublist s.data ∧
      ∀ c : Char, c ∈ (normalizePhone s).data ↔ c ∈ s.data ∧ c.isDigit = true) ∧
    (∀ s : String, normalizePhone (normalizePhone s) = normalizePhone s) ∧
    (∀ s : String, (∀ c ∈ s.data, c.isDigit = true) → normalizePhone s = s) := by
  refine ⟨fun s => ⟨?_, fun c => ?_⟩, fun s => ?_, fun s h => ?_⟩
  · exact List.filter_sublist _
  · simp [normalizePhone, List.mem_filter]
  · exact congrArg String.mk (by simp [normalizePhone, List.filter_filter])
  · exact congrArg String.mk (List.filter_eq_self.mpr (fun c hc => by simpa using h c hc))

/-- Witness for C8 at a digits-only string. -/
theorem normalizePhone_digits_idempotent_witness :
    (∀ c ∈ ("5551234567" : String).data, c.isDigit = true) ∧
    normalizePhone "5551234567" = "5551234567" :=
  ⟨by decide, normalizePhone_digits_idempotent.2.2 "5551234567" (by decide)⟩

/-- C1 (amended): an admin operation is refused with 401 — and the wrapped
handler does not run — when the configured `ADMIN_KEY` is absent *or
empty*, or when the `x-admin-key` header differs from it; otherwise the
wrapped operation proceeds unchanged. -/
theorem admin_guard_refusal_amended :
    ∀ (adminKey hdr : Option String),
      ((adminKey = none ∨ adminKey = some "" ∨ hdr ≠ adminKey) →
        (∀ (α : Type) (op : Resp α), guardAdmin adminKey hdr op = Resp.unauthorized) ∧
        (∀ store q, adminListRoute adminKey hdr store q = Resp.unauthorized) ∧
        (∀ store id bst,
          adminPatchRoute adminKey hdr store id bst = (Resp.unauthorized, store))) ∧
      (∀ k, adminKey = some k → k ≠ "" → hdr = some k →
        (∀ (α : Type) (op : Resp α), guardAdmin adminKey hdr op = op) ∧
        (∀ store q, adminListRoute adminKey hdr store q = listHandler store q) ∧
        (∀ store id bst,
          adminPatchRoute adminKey hdr store id bst = patchHandler store id bst)) := by
  intro adminKey hdr
  constructor
  · intro h
    have hra : requireAdmin adminKey hdr = false := by
      rcases h with h | h | h
      · subst h; rfl
      · subst h; rfl
      · have hb : (hdr == adminKey) = false := beq_eq_false_iff_ne.mpr h
        simp [requireAdmin, hb]
    exact ⟨fun α op => by simp [guardAdmin, hra],
           fun store q => by simp [adminListRoute, guardAdmin, hra],
           fun store id bst => by simp [adminPatchRoute, hra]⟩
  · intro k hk hne hh
    subst hk
    subst hh
    have hra : requireAdmin (some k) (some k) = true := by
      simp [requireAdmin, envTruthy, hne]
    exact ⟨fun α op => by simp [guardAdmin, hra],
           fun store q => by simp [adminListRoute, guardAdmin, hra],
           fun store id bst => by simp [adminPatchRoute, hra]⟩

/-- Witness for the amended C1: a mismatching header is refused, a
matching non-empty key passes the wrapped response through. -/
theorem admin_guard_refusal_amended_witness :
    guardAdmin (some "k") (some "wrong") (Resp.ok (0 : Nat)) = Resp.unauthorized ∧
    guardAdmin (some "k") (some "k") (Resp.ok (0 : Nat)) = Resp.ok 0 :=
  ⟨((admin_guard_refusal_amended (some "k") (some "wrong")).1
      (Or.inr (Or.inr (by decide)))).1 Nat (Resp.ok 0),
   ((admin_guard_refusal_amended (some "k") (some "k")).2 "k" rfl
      (by decide) rfl).1 Nat (Resp.ok 0)⟩

/-- Counterexample to C1 as stated: with `ADMIN_KEY` configured as the
empty string and the header equal to it, the configured value is present
and the supplied value matches, so the claim says the operation proceeds;
the code still refuses with 401 because `!process.env.ADMIN_KEY` treats
the empty string as falsy. -/
theorem admin_guard_claim_counterexample :
    (some "" : Option String) ≠ none ∧
    some "" = some "" ∧
    guardAdmin (some "") (some "") (Resp.ok (0 : Nat)) = Resp.unauthorized ∧
    Resp.unauthorized ≠ Resp.ok (0 : Nat) := by
  decide

/-- C6: the listing's status filter falls back to `"requested"` when the
query is absent, the result holds at most 500 records sorted by creation
time descending, and an unmatched status yields a successful empty
listing. -/
theorem listing_defaults_bounds_order_empty :
    ∀ (store : List Record) (q : Option String),
      (q = none → listHandler store q = Resp.ok (listRequests store "requested")) ∧
      (listRequests store (effectiveStatus q)).length ≤ 500 ∧
      List.Pairwise byCreatedDesc (listRequests store (effectiveStatus q)) ∧
      ((∀ r ∈ store, r.status ≠ effectiveStatus q) →
        listHandler store q = Resp.ok []) := by
  intro store q
  refine ⟨?_, ?_, ?_, ?_⟩
  · rintro rfl
    have h1 : effectiveStatus (none : Option String) = "requested" := by decide
    simp [listHandler, h1]
  · exact List.length_take_le _ _
  · exact (List.sorted_insertionSort byCreatedDesc _).sublist (List.take_sublist _ _)
  · intro hno
    have hfil : store.filter (fun r => r.status == effectiveStatus q) = [] :=
      List.filter_eq_nil_iff.mpr (fun r hr => by simpa using hno r hr)
    simp [listHandler, listRequests, hfil]

/-- Witness for C6: default filter on the empty store, and an unmatched
status on a store with one scheduled record. -/
theorem listing_defaults_bounds_order_empty_witness :
    listHandler [] none = Resp.ok (listRequests [] "requested") ∧
    listHandler
      [{ id := 1, created_at := 7, preferred_dates := ["2025-03-01"],
         preferred_windows := ["morning"], name := "Jane Doe",
         phone := "5551234567", email := none, line1 := "1 Main St",
         line2 := none, city := "Provo", state := "UT", zip := "84601",
         notes := none, status := "scheduled" }] (some "bogus") =
      Resp.ok [] :=
  ⟨(listing_defaults_bounds_order_empty [] none).1 rfl,
   (listing_defaults_bounds_order_empty
      [{ id := 1, created_at := 7, preferred_dates := ["2025-03-01"],
         preferred_windows := ["morning"], name := "Jane Doe",
         phone := "5551234567", email := none, line1 := "1 Main St",
         line2 := none, city := "Provo", state := "UT", zip := "84601",
         notes := none, status := "scheduled" }] (some "bogus")).2.2.2
     (by decide)⟩

/-- C10: an authorized listing never validates its status filter: for
every status string it answers 200 with the (possibly empty) matching
records, never 400. -/
theorem listing_accepts_any_status_value :
    ∀ (adminKey hdr : Option String) (store : List Record) (q : Option String),
      requireAdmin adminKey hdr = true →
        adminListRoute adminKey hdr store q =
          Resp.ok (listRequests store (effectiveStatus q)) ∧
        adminListRoute adminKey hdr store q ≠ Resp.badRequest ∧
        ((∀ r ∈ store, r.status ≠ effectiveStatus q) →
          adminListRoute adminKey hdr store q = Resp.ok []) := by
  intro aK hdr store q hra
  have h1 : adminListRoute aK hdr store q =
      Resp.ok (listRequests store (effectiveStatus q)) := by
    simp [adminListRoute, guardAdmin, hra, listHandler]
  refine ⟨h1, by rw [h1]; simp, ?_⟩
  intro hno
  rw [h1]
  have hfil : store.filter (fun r => r.status == effectiveStatus q) = [] :=
    List.filter_eq_nil_iff.mpr (fun r hr => by simpa using hno r hr)
  simp [listRequests, hfil]

/-- Witness for C10 at an out-of-enum status value. -/
theorem listing_accepts_any_status_value_witness :
    requireAdmin (some "k") (some "k") = true ∧
    adminListRoute (some "k") (some "k")
      [{ id := 1, created_at := 7, preferred_dates := ["2025-03-01"],
         preferred_windows := ["morning"], name := "Jane Doe",
         phone := "5551234567", email := none, line1 := "1 Main St",
         line2 := none, city := "Provo", state := "UT", zip := "84601",
         notes := none, status := "requested" }] (some "not-a-status") =
      Resp.ok [] :=
  ⟨by decide,
   (listing_accepts_any_status_value (some "k") (some "k")
      [{ id := 1, created_at := 7, preferred_dates := ["2025-03-01"],
         preferred_windows := ["morning"], name := "Jane Doe",
         phone := "5551234567", email := none, line1 := "1 Main St",
         line2 := none, city := "Provo", state := "UT", zip := "84601",
         notes := none, status := "requested" }] (some "not-a-status")
      (by decide)).2.2 (by decide)⟩

theorem patchHandler_ok_case (store : List Record) (id : Nat) (bst : Option String)
    (hc : allowedStatuses.contains (jsTrim (optStr bst)) = true)
    (hpos : (store.filter (fun r => r.id == id)).length ≠ 0) :
    patchHandler store id bst =
      (Resp.ok (),
       store.map (fun r =>
         if r.id == id then { r with status := jsTrim (optStr bst) } else r)) := by
  have hb : ((store.filter (fun r => r.id == id)).length == 0) = false := by
    simpa using hpos
  have hm : jsTrim (optStr bst) ∈ allowedStatuses := by simpa using hc
  simp [patchHandler, hm, updateStatus, hb]

theorem status_of_ite (r : Record) (id : Nat) (st : String) :
    (if r.id == id then { r with status := st } else r).status =
      if r.id = id then st else r.status := by
  by_cases h : r.id = id
  · simp [h]
  · have hb : (r.id == id) = false := by simpa using h
    simp [hb, h]

theorem ite_update_fields (r : Record) (id : Nat) (st : String) :
    (if r.id == id then { r with status := st } else r).id = r.id ∧
    (if r.id == id then { r with status := st } else r).created_at = r.created_at ∧
    (if r.id == id then { r with status := st } else r).preferred_dates = r.preferred_dates ∧
    (if r.id == id then { r with status := st } else r).preferred_windows = r.preferred_windows ∧
    (if r.id == id then { r with status := st } else r).name = r.name ∧
    (if r.id == id then { r with status := st } else r).phone = r.phone ∧
    (if r.id == id then { r with status := st } else r).email = r.email ∧
    (if r.id == id then { r with status := st } else r).line1 = r.line1 ∧
    (if r.id == id then { r with status := st } else r).line2 = r.line2 ∧
    (if r.id == id then { r with status := st } else r).city = r.city ∧
    (if r.id == id then { r with status := st } else r).state = r.state ∧
    (if r.id == id then { r with status := st } else r).zip = r.zip ∧
    (if r.id == id then { r with status := st } else r).notes = r.notes ∧
    (r.id ≠ id → (if r.id == id then { r with status := st } else r) = r) := by
  by_cases h : r.id = id
  · simp [h]
  · have hb : (r.id == id) = false := by simpa using h
    simp [hb, h]

/-- C2: the admin status update rejects a status outside
{requested, scheduled, cancelled} with 400 before touching the store;
with an allowed status it answers 404 and leaves the store unchanged when
no record has the id, and updates the matching record's status exactly
when one exists. -/
theorem patch_validates_enum_then_existence :
    ∀ (store : List Record) (id : Nat) (bst : Option String),
      (allowedStatuses.contains (jsTrim (optStr bst)) = false →
        patchHandler store id bst = (Resp.badRequest, store)) ∧
      (allowedStatuses.contains (jsTrim (optStr bst)) = true →
        (∀ r ∈ store, r.id ≠ id) →
        patchHandler store id bst = (Resp.notFound, store)) ∧
      (allowedStatuses.contains (jsTrim (optStr bst)) = true →
        (∃ r ∈ store, r.id = id) →
        (patchHandler store id bst).1 = Resp.ok () ∧
        ∀ i (h : i < store.length) (h2 : i < (patchHandler store id bst).2.length),
          ((patchHandler store id bst).2.get ⟨i, h2⟩).status =
            (if (store.get ⟨i, h⟩).id = id then jsTrim (optStr bst)
             else (store.get ⟨i, h⟩).status)) := by
  intro store id bst
  refine ⟨?_, ?_, ?_⟩
  · intro hc
    have hnm : ¬ (jsTrim (optStr bst) ∈ allowedStatuses) := by simpa using hc
    simp [patchHandler, hnm]
  · intro hc hno
    have hm : jsTrim (optStr bst) ∈ allowedStatuses := by simpa using hc
    have hfil : store.filter (fun r => r.id == id) = [] :=
      List.filter_eq_nil_iff.mpr (fun r hr => by simpa using hno r hr)
    have hmap : store.map (fun r =>
        if r.id == id then { r with status := jsTrim (optStr bst) } else r) = store := by
      have hfr : ∀ r ∈ store,
          (if r.id == id then { r with status := jsTrim (optStr bst) } else r) = r := by
        intro r hr
        have hb : (r.id == id) = false := by simpa using hno r hr
        simp [hb]
      rw [List.map_congr_left hfr]
      simp
    simp [patchHandler, hm, updateStatus, hfil]
    simpa using hmap
  · intro hc hex
    obtain ⟨r, hr, hrid⟩ := hex
    have hpos : (store.filter (fun r => r.id == id)).length ≠ 0 := by
      intro h0
      rw [List.length_eq_zero] at h0
      have hmem : r ∈ store.filter (fun r => r.id == id) :=
        List.mem_filter.mpr ⟨hr, by simp [hrid]⟩
      rw [h0] at hmem
      cases hmem
    rw [patchHandler_ok_case store id bst hc hpos]
    refine ⟨rfl, ?_⟩
    intro i h h2
    have hg : ((store.map (fun r =>
        if r.id == id then { r with status := jsTrim (optStr bst) } else r)).get ⟨i, h2⟩) =
        (if (store.get ⟨i, h⟩).id == id
         then { store.get ⟨i, h⟩ with status := jsTrim (optStr bst) }
         else store.get ⟨i, h⟩) := by
      simp
    rw [hg]
    exact status_of_ite (store.get ⟨i, h⟩) id (jsTrim (optStr bst))

/-- Witness for C2: on a one-record store, an out-of-enum status is
rejected with the store untouched, an unknown id yields 404 with the
store untouched, and a matching id gets its status updated. -/
theorem patch_validates_enum_then_existence_witness :
    patchHandler [sampleRecord] 1 (some "nope") = (Resp.badRequest, [sampleRecord]) ∧
    patchHandler [sampleRecord] 2 (some "scheduled") = (Resp.notFound, [sampleRecord]) ∧
    (patchHandler [sampleRecord] 1 (some "scheduled")).1 = Resp.ok () :=
  ⟨(patch_validates_enum_then_existence [sampleRecord] 1 (some "nope")).1 (by decide),
   (patch_validates_enum_then_existence [sampleRecord] 2 (some "scheduled")).2.1
     (by decide) (by decide),
   ((patch_validates_enum_then_existence [sampleRecord] 1 (some "scheduled")).2.2
     (by decide) ⟨sampleRecord, by decide, rfl⟩).1⟩

/-- C7: a successful admin status update preserves every field other than
`status` of every row, and leaves rows with a different id completely
unchanged. -/
theorem patch_changes_only_status :
    ∀ (store : List Record) (id : Nat) (bst : Option String),
      (patchHandler store id bst).1 = Resp.ok () →
      (patchHandler store id bst).2.length = store.length ∧
      ∀ i (h : i < store.length) (h2 : i < (patchHandler store id bst).2.length),
        ((patchHandler store id bst).2.get ⟨i, h2⟩).id = (store.get ⟨i, h⟩).id ∧
        ((patchHandler store id bst).2.get ⟨i, h2⟩).created_at = (store.get ⟨i, h⟩).created_at ∧
        ((patchHandler store id bst).2.get ⟨i, h2⟩).preferred_dates = (store.get ⟨i, h⟩).preferred_dates ∧
        ((patchHandler store id bst).2.get ⟨i, h2⟩).preferred_windows = (store.get ⟨i, h⟩).preferred_windows ∧
        ((patchHandler store id bst).2.get ⟨i, h2⟩).name = (store.get ⟨i, h⟩).name ∧
        ((patchHandler store id bst).2.get ⟨i, h2⟩).phone = (store.get ⟨i, h⟩).phone ∧
        ((patchHandler store id bst).2.get ⟨i, h2⟩).email = (store.get ⟨i, h⟩).email ∧
        ((patchHandler store id bst).2.get ⟨i, h2⟩).line1 = (store.get ⟨i, h⟩).line1 ∧
        ((patchHandler store id bst).2.get ⟨i, h2⟩).line2 = (store.get ⟨i, h⟩).line2 ∧
        ((patchHandler store id bst).2.get ⟨i, h2⟩).city = (store.get ⟨i, h⟩).city ∧
        ((patchHandler store id bst).2.get ⟨i, h2⟩).state = (store.get ⟨i, h⟩).state ∧
        ((patchHandler store id bst).2.get ⟨i, h2⟩).zip = (store.get ⟨i, h⟩).zip ∧
        ((patchHandler store id bst).2.get ⟨i, h2⟩).notes = (store.get ⟨i, h⟩).notes ∧
        ((store.get ⟨i, h⟩).id ≠ id →
          (patchHandler store id bst).2.get ⟨i, h2⟩ = store.get ⟨i, h⟩) := by
  intro store id bst hok
  by_cases hc : allowedStatuses.contains (jsTrim (optStr bst)) = true
  · by_cases hpos : (store.filter (fun r => r.id == id)).length = 0
    · exfalso
      have hm : jsTrim (optStr bst) ∈ allowedStatuses := by simpa using hc
      simp [patchHandler, hm, updateStatus, hpos] at hok
    · rw [patchHandler_ok_case store id bst hc hpos]
      refine ⟨by simp, ?_⟩
      intro i h h2
      have hg : ((store.map (fun r =>
          if r.id == id then { r with status := jsTrim (optStr bst) } else r)).get ⟨i, h2⟩) =
          (if (store.get ⟨i, h⟩).id == id
           then { store.get ⟨i, h⟩ with status := jsTrim (optStr bst) }
           else store.get ⟨i, h⟩) := by
        simp
      rw [hg]
      exact ite_update_fields (store.get ⟨i, h⟩) id (jsTrim (optStr bst))
  · exfalso
    have hnm : ¬ (jsTrim (optStr bst) ∈ allowedStatuses) := by
      simpa using hc
    simp [patchHandler, hnm] at hok

/-- Witness for C7: a successful update of the sample record keeps its
non-status fields. -/
theorem patch_changes_only_status_witness :
    (patchHandler [sampleRecord] 1 (some "cancelled")).2.length = 1 ∧
    ((patchHandler [sampleRecord] 1 (some "cancelled")).2.get
        ⟨0, by decide⟩).name = "Jane Doe" :=
  ⟨(patch_changes_only_status [sampleRecord] 1 (some "cancelled") (by decide)).1,
   by
    have h5 := ((patch_changes_only_status [sampleRecord] 1 (some "cancelled")
      (by decide)).2 0 (by decide) (by decide)).2.2.2.2.1
    simpa using h5⟩

/-! ## Round-trip of the JSON serialization on validated inputs -/

theorem escape_plain (c : Char) (h : plainChar c = true) : escapeChar c = [c] := by
  unfold plainChar at h
  simp only [Bool.and_eq_true, Bool.not_eq_true'] at h
  obtain ⟨⟨⟨⟨h1, h2⟩, h3⟩, h4⟩, h5⟩ := h
  simp [escapeChar, h1, h2, h3, h4, h5]

theorem flatMap_escape_plain (l : List Char) (h : ∀ c ∈ l, plainChar c = true) :
    l.flatMap escapeChar = l := by
  induction l with
  | nil => rfl
  | cons c cs ih =>
    simp [escape_plain c (h c (List.mem_cons_self c cs)),
          ih (fun d hd => h d (List.mem_cons_of_mem c hd))]

theorem parseAux_plain (l : List Char) (h : ∀ c ∈ l, plainChar c = true) :
    ∀ (acc rest : List Char),
      parseJsonStringAux false acc (l ++ '"' :: rest) = some (acc.reverse ++ l, rest) := by
  induction l with
  | nil =>
    intro acc rest
    simp [parseJsonStringAux]
  | cons c cs ih =>
    intro acc rest
    have hc := h c (List.mem_cons_self c cs)
    unfold plainChar at hc
    simp only [Bool.and_eq_true, Bool.not_eq_true'] at hc
    obtain ⟨⟨⟨⟨h1, h2⟩, _⟩, _⟩, _⟩ := hc
    show parseJsonStringAux false acc (c :: (cs ++ '"' :: rest)) = _
    simp [parseJsonStringAux, h1, h2,
      ih (fun d hd => h d (List.mem_cons_of_mem c hd))]

theorem encodeSeq_length (l : List String) : l.length ≤ (encodeSeq l).length := by
  induction l with
  | nil => simp [encodeSeq]
  | cons a tail ih =>
    cases tail with
    | nil => simp [encodeSeq, encodeJsonString]
    | cons b r =>
      have he : encodeSeq (a :: b :: r) =
          encodeJsonString a ++ ',' :: encodeSeq (b :: r) := rfl
      have h1 : (encodeSeq (a :: b :: r)).length =
          (encodeJsonString a).length + ((encodeSeq (b :: r)).length + 1) := by
        rw [he, List.length_append, List.length_cons]
      simp only [List.length_cons] at ih ⊢
      omega

theorem parseItems_encodeSeq :
    ∀ (l : List String) (fuel : Nat), l ≠ [] →
      (∀ s ∈ l, ∀ c ∈ s.data, plainChar c = true) → l.length ≤ fuel →
      parseItems fuel (encodeSeq l) = some (l, []) := by
  intro l
  induction l with
  | nil => intro fuel h _ _; cases h rfl
  | cons a tail ih =>
    intro fuel _ hplain hfuel
    simp only [List.length_cons] at hfuel
    obtain ⟨f, rfl⟩ : ∃ f, fuel = f + 1 := ⟨fuel - 1, by omega⟩
    have hpa : ∀ c ∈ a.data, plainChar c = true := hplain a (by simp)
    cases tail with
    | nil =>
      have he : encodeSeq [a] = '"' :: (a.data ++ '"' :: [']']) := by
        simp [encodeSeq, encodeJsonString, flatMap_escape_plain a.data hpa]
      rw [he]
      simp only [parseItems]
      rw [parseAux_plain a.data hpa [] [']']]
      simp
    | cons b r =>
      have he : encodeSeq (a :: b :: r) =
          '"' :: (a.data ++ '"' :: (',' :: encodeSeq (b :: r))) := by
        simp [encodeSeq, encodeJsonString, flatMap_escape_plain a.data hpa]
      rw [he]
      simp only [parseItems]
      rw [parseAux_plain a.data hpa [] (',' :: encodeSeq (b :: r))]
      have hb1 : (((',' : Char)) == ']') = false := by decide
      have hb2 : (((',' : Char)) == ',') = true := by decide
      simp only [List.reverse_nil, List.nil_append, hb1, hb2,
        Bool.false_eq_true, if_false, if_true]
      rw [ih f (by simp) (fun s hs => hplain s (List.mem_cons_of_mem a hs))
          (by simp only [List.length_cons] at hfuel ⊢; omega)]
      simp

theorem parse_encode_roundtrip (l : List String)
    (h : ∀ s ∈ l, ∀ c ∈ s.data, plainChar c = true) :
    parseStringArray (encodeStringArray l) = some l := by
  cases l with
  | nil => rfl
  | cons a tail =>
    obtain ⟨t, ht⟩ : ∃ t, encodeSeq (a :: tail) = '"' :: t := by
      cases tail with
      | nil => exact ⟨_, rfl⟩
      | cons b r => exact ⟨_, rfl⟩
    show parseStringArray ⟨'[' :: encodeSeq (a :: tail)⟩ = some (a :: tail)
    simp only [parseStringArray]
    rw [ht]
    have hq1 : ((('[' : Char)) == '[') = true := by decide
    have hq2 : ((('"' : Char)) == ']') = false := by decide
    simp only [hq1, hq2, Bool.false_eq_true, if_false, if_true]
    rw [← ht]
    rw [parseItems_encodeSeq (a :: tail) (encodeSeq (a :: tail)).length
        (by simp) h (encodeSeq_length (a :: tail))]

theorem plain_of_digit (c : Char) (h : c.isDigit = true) : plainChar c = true := by
  unfold plainChar
  simp only [Bool.and_eq_true, Bool.not_eq_true']
  refine ⟨⟨⟨⟨?_, ?_⟩, ?_⟩, ?_⟩, ?_⟩ <;>
    (rw [beq_eq_false_iff_ne]; rintro rfl; exact absurd h (by decide))

theorem plain_of_valid_date (d : String) (h : isValidISODate d = true) :
    ∀ c ∈ d.data, plainChar c = true := by
  unfold isValidISODate at h
  split at h
  · rename_i y1 y2 y3 y4 c1 m1 m2 c2 d1 d2 heq
    simp only [Bool.and_eq_true] at h
    obtain ⟨⟨⟨⟨⟨⟨⟨⟨⟨hy1, hy2⟩, hy3⟩, hy4⟩, hc1⟩, hm1⟩, hm2⟩, hc2⟩, hd1⟩, hd2⟩ := h
    rw [beq_iff_eq] at hc1 hc2
    subst hc1 hc2
    intro c hc
    rw [heq] at hc
    fin_cases hc
    · exact plain_of_digit _ hy1
    · exact plain_of_digit _ hy2
    · exact plain_of_digit _ hy3
    · exact plain_of_digit _ hy4
    · decide
    · exact plain_of_digit _ hm1
    · exact plain_of_digit _ hm2
    · decide
    · exact plain_of_digit _ hd1
    · exact plain_of_digit _ hd2
  · exact absurd h (by simp)

theorem plain_of_window (w : String) (h : allowedWindows.contains w = true) :
    ∀ c ∈ w.data, plainChar c = true := by
  have hm : w ∈ allowedWindows := by simpa using h
  simp only [allowedWindows, List.mem_cons, List.mem_singleton,
    List.not_mem_nil, or_false] at hm
  rcases hm with rfl | rfl | rfl <;> decide

/-- A validated `src/unnamed/part_000` submission has present date/window
arrays whose entries all pass their respective checks. -/
theorem part000_valid_of_no_errors (b : Body)
    (h : (Part000.validate b).1 = []) :
    ∃ ds ws, b.dates = some ds ∧ b.windows = some ws ∧
      (∀ d ∈ ds, isValidISODate d = true) ∧
      (∀ w ∈ ws, allowedWindows.contains w = true) := by
  rw [part000_errors_eq] at h
  simp only [List.append_eq_nil] at h
  obtain ⟨⟨⟨⟨⟨⟨⟨⟨⟨h1, h2⟩, h3⟩, h4⟩, _⟩, _⟩, _⟩, _⟩, _⟩, _⟩ := h
  have hda : arrNonEmpty b.dates = true := by
    by_cases hx : arrNonEmpty b.dates = true
    · exact hx
    · rw [if_neg hx] at h1; cases h1
  have hwa : arrNonEmpty b.windows = true := by
    by_cases hx : arrNonEmpty b.windows = true
    · exact hx
    · unfold ruleWindowsPresent at h2; rw [if_neg hx] at h2; cases h2
  obtain ⟨ds, hd⟩ : ∃ ds, b.dates = some ds := by
    cases hbd : b.dates with
    | none => rw [hbd] at hda; cases hda
    | some ds => exact ⟨ds, rfl⟩
  obtain ⟨ws, hw⟩ : ∃ ws, b.windows = some ws := by
    cases hbw : b.windows with
    | none => rw [hbw] at hwa; cases hwa
    | some ws => exact ⟨ws, rfl⟩
  refine ⟨ds, ws, hd, hw, ?_, ?_⟩
  · unfold ruleDatesValid at h3
    rw [hd] at h3
    rw [List.filterMap_eq_nil_iff] at h3
    intro d hdm
    have := h3 d hdm
    by_cases hv : isValidISODate d = true
    · exact hv
    · rw [if_neg hv] at this; cases this
  · unfold ruleWindowsValid at h4
    rw [hw] at h4
    rw [List.filterMap_eq_nil_iff] at h4
    intro w hwm
    have := h4 w hwm
    by_cases hv : allowedWindows.contains w = true
    · exact hv
    · rw [if_neg hv] at this; cases this

/-- C9: for every validated submission, the date and window sequences
stored by the insert (`JSON.stringify`) and decoded by the listing
(`JSON.parse`) come back equal, element for element and in order, to the
sequences of the normalized record that was inserted. -/
theorem insert_list_roundtrip :
    ∀ (b : Body) (store : List Part000.Row) (nextId now : Nat),
      (Part000.validate b).1 = [] →
      ∃ (r : Part000.Row) (ds ws : List String),
        Part000.postHandler store nextId now b = (Resp.ok nextId, store ++ [r]) ∧
        (Part000.validate b).2.dates = some ds ∧
        (Part000.validate b).2.windows = some ws ∧
        Part000.decodeRow r = (some ds, some ws) := by
  intro b store nextId now h
  obtain ⟨ds, ws, hd, hw, hvd, hvw⟩ := part000_valid_of_no_errors b h
  have hcd : (Part000.validate b).2.dates = some ds := by
    rw [show (Part000.validate b).2.dates = b.dates from rfl, hd]
  have hcw : (Part000.validate b).2.windows = some ws := by
    rw [show (Part000.validate b).2.windows = b.windows from rfl, hw]
  have hpost : Part000.postHandler store nextId now b =
      (Resp.ok nextId,
       store ++ [Part000.Row.mk nextId now
         (stringifyArr (Part000.validate b).2.dates)
         (stringifyArr (Part000.validate b).2.windows)
         (Part000.validate b).2.name
         (Part000.validate b).2.phone
         (Part000.validate b).2.email
         (Part000.validate b).2.line1
         (Part000.validate b).2.line2
         (Part000.validate b).2.city
         (Part000.validate b).2.state
         (Part000.validate b).2.zip
         (Part000.validate b).2.notes
         "requested"]) := by
    simp [Part000.postHandler, h]
  refine ⟨_, ds, ws, hpost, hcd, hcw, ?_⟩
  simp only [Part000.decodeRow, hcd, hcw, stringifyArr, Option.map_some',
    Option.some_bind]
  rw [parse_encode_roundtrip ds (fun s hs c hc => plain_of_valid_date s (hvd s hs) c hc),
      parse_encode_roundtrip ws (fun s hs c hc => plain_of_window s (hvw s hs) c hc)]

/-- Witness for C9 at the valid submission of spec §8 (with a state, as
the `part_000` validator requires one). -/
theorem insert_list_roundtrip_witness :
    ∃ (r : Part000.Row) (ds ws : List String),
      Part000.postHandler [] 1 7
        { dates := some ["2025-03-01"], windows := some ["morning"],
          name := some "Jane Doe", phone := some "(555) 123-4567", email := none,
          line1 := some "1 Main St", line2 := none, city := some "Provo",
          state := some "UT", zip := some "84601", notes := none } =
        (Resp.ok 1, [] ++ [r]) ∧
      (Part000.validate
        { dates := some ["2025-03-01"], windows := some ["morning"],
          name := some "Jane Doe", phone := some "(555) 123-4567", email := none,
          line1 := some "1 Main St", line2 := none, city := some "Provo",
          state := some "UT", zip := some "84601", notes := none }).2.dates = some ds ∧
      (Part000.validate
        { dates := some ["2025-03-01"], windows := some ["morning"],
          name := some "Jane Doe", phone := some "(555) 123-4567", email := none,
          line1 := some "1 Main St", line2 := none, city := some "Provo",
          state := some "UT", zip := some "84601", notes := none }).2.windows = some ws ∧
      Part000.decodeRow r = (some ds, some ws) :=
  insert_list_roundtrip
    { dates := some ["2025-03-01"], windows := some ["morning"],
      name := some "Jane Doe", phone := some "(555) 123-4567", email := none,
      line1 := some "1 Main St", line2 := none, city := some "Provo",
      state := some "UT", zip := some "84601", notes := none }
    [] 1 7 (by decide)
